import Mathlib

/-!
Shallow embedding of `src/programs/lockup/src/calculator.rs` from the
project-serum `stake` repository, together with proofs about it.

The Rust source computes vesting quantities with `u64`/`i64` integer
arithmetic (checked subtraction) and, inside `linear_unlock`, IEEE-754
binary64 (`f64`) intermediate arithmetic.  We model `f64` exactly: a
finite double is carried as the integer pair `(m, p)` denoting the
dyadic rational `m * 2 ^ p` (every finite binary64 value is dyadic), in
the canonical form produced by round-to-nearest-even at 53 significant
bits — `2 ^ 52 ≤ |m| < 2 ^ 53` for normal values, `p = -1074` with
`|m| < 2 ^ 52` for subnormals, and `(0, 0)` for zero — with overflow to
infinity past the largest finite double.  The special values `inf`,
`neginf` and `nan` are explicit constructors, and Rust's saturating
`as u64` cast (NaN and negative values to `0`, overflow to `u64::MAX`,
otherwise truncation toward zero) is modelled by `F64.toU64`.
-/

set_option maxRecDepth 100000

namespace Stake

/-- Fueled binary logarithm: `log2fuel f n` is `⌊log₂ n⌋` for `n ≥ 1`
whenever `f` is at least the bit length of `n`; structural recursion on
the fuel keeps it kernel-reducible. -/
def log2fuel : ℕ → ℕ → ℕ
  | 0, _ => 0
  | f + 1, n => if n ≤ 1 then 0 else log2fuel f (n / 2) + 1

/-- Floor of the binary logarithm, with fuel ample for every number that
can arise from 64-bit inputs in this development. -/
def ilog2 (n : ℕ) : ℕ := log2fuel 6000 n

/-- Model of an IEEE-754 binary64 value: `finite m p` denotes the dyadic
rational `m * 2 ^ p`; `inf`, `neginf` and `nan` are the special values. -/
inductive F64 where
  | finite (m : ℤ) (p : ℤ)
  | inf
  | neginf
  | nan
deriving DecidableEq

namespace F64

/-- A finite double (as opposed to an infinity or NaN). -/
def isFinite : F64 → Bool
  | finite _ _ => true
  | _ => false

/-- Whether `2 ^ l ≤ n / d` (for positive naturals `n`, `d`), decided by
cross multiplication. -/
def pow2LE (l : ℤ) (n d : ℕ) : Bool :=
  if 0 ≤ l then decide (d * 2 ^ l.toNat ≤ n) else decide (d ≤ n * 2 ^ (-l).toNat)

/-- Round the positive rational `n / d` to the nearest binary64 value
(ties to even), overflowing to `inf` past the largest finite double and
flushing into the subnormal range below `2 ^ (-1022)`; the output is in
canonical mantissa-exponent form. -/
def roundPos (n d : ℕ) : F64 :=
  let l : ℤ := (ilog2 n : ℤ) - (ilog2 d : ℤ)
  let e : ℤ := if pow2LE l n d then l else l - 1
  let p : ℤ := if e - 52 ≤ -1074 then -1074 else e - 52
  let nn : ℕ := if 0 ≤ p then n else n * 2 ^ (-p).toNat
  let dd : ℕ := if 0 ≤ p then d * 2 ^ p.toNat else d
  let m0 : ℕ := nn / dd
  let r2 : ℕ := 2 * (nn % dd)
  let m : ℕ :=
    if r2 < dd then m0
    else if dd < r2 then m0 + 1
    else if m0 % 2 = 0 then m0 else m0 + 1
  if m = 0 then F64.finite 0 0
  else
    let mp : ℕ × ℤ := if m = 2 ^ 53 then (2 ^ 52, p + 1) else (m, p)
    if 971 < mp.2 then F64.inf else F64.finite (mp.1 : ℤ) mp.2

/-- Negation on the model. -/
def negateF : F64 → F64
  | finite m p => finite (-m) p
  | inf => neginf
  | neginf => inf
  | nan => nan

/-- Round the exact rational `num / den` (nonzero `den`) to the nearest
binary64 value. -/
def roundFrac (num den : ℤ) : F64 :=
  if num = 0 then finite 0 0
  else if (0 < num ∧ 0 < den) ∨ (num < 0 ∧ den < 0) then roundPos num.natAbs den.natAbs
  else negateF (roundPos num.natAbs den.natAbs)

/-- Round the exact dyadic rational `m * 2 ^ p` to the nearest binary64
value. -/
def roundDy (m p : ℤ) : F64 :=
  if 0 ≤ p then roundFrac (m * 2 ^ p.toNat) 1 else roundFrac m (2 ^ (-p).toNat)

/-- Rust `u64 as f64`. -/
def ofNat (n : ℕ) : F64 := roundFrac (n : ℤ) 1

/-- Rust `i64 as f64`. -/
def ofInt (i : ℤ) : F64 := roundFrac i 1

/-- Rust `f64 as u64`: saturating cast — NaN and negative values go to
`0`, values past `u64::MAX` saturate, finite values truncate toward
zero. -/
def toU64 : F64 → ℕ
  | nan => 0
  | neginf => 0
  | inf => 2 ^ 64 - 1
  | finite m p =>
    if m < 0 then 0
    else
      let t : ℕ := if 0 ≤ p then m.toNat * 2 ^ p.toNat else m.toNat / 2 ^ (-p).toNat
      if t ≤ 2 ^ 64 - 1 then t else 2 ^ 64 - 1

/-- IEEE-754 subtraction on the model: the exact difference of two
finite doubles is a dyadic rational, rounded back to a double. -/
def sub : F64 → F64 → F64
  | nan, _ => nan
  | _, nan => nan
  | inf, inf => nan
  | inf, _ => inf
  | neginf, neginf => nan
  | neginf, _ => neginf
  | finite _ _, inf => neginf
  | finite _ _, neginf => inf
  | finite m1 p1, finite m2 p2 =>
    if p2 ≤ p1 then roundDy (m1 * 2 ^ (p1 - p2).toNat - m2) p2
    else roundDy (m1 - m2 * 2 ^ (p2 - p1).toNat) p1

/-- IEEE-754 division on the model (our finite zeros are `+0`, so a
finite zero divisor behaves as `+0.0`, and `finite / ±inf` is a zero). -/
def div : F64 → F64 → F64
  | nan, _ => nan
  | _, nan => nan
  | inf, inf => nan
  | inf, neginf => nan
  | neginf, inf => nan
  | neginf, neginf => nan
  | inf, finite m _ => if 0 ≤ m then inf else neginf
  | neginf, finite m _ => if 0 ≤ m then neginf else inf
  | finite _ _, inf => finite 0 0
  | finite _ _, neginf => finite 0 0
  | finite m1 p1, finite m2 p2 =>
    if m2 = 0 then (if m1 = 0 then nan else if 0 < m1 then inf else neginf)
    else if 0 ≤ p1 - p2 then roundFrac (m1 * 2 ^ (p1 - p2).toNat) m2
    else roundFrac m1 (m2 * 2 ^ (p2 - p1).toNat)

/-- IEEE-754 multiplication on the model (`0 * ±inf = NaN`). -/
def mul : F64 → F64 → F64
  | nan, _ => nan
  | _, nan => nan
  | inf, inf => inf
  | inf, neginf => neginf
  | neginf, inf => neginf
  | neginf, neginf => inf
  | inf, finite m _ => if m = 0 then nan else if 0 < m then inf else neginf
  | finite m _, inf => if m = 0 then nan else if 0 < m then inf else neginf
  | neginf, finite m _ => if m = 0 then nan else if 0 < m then neginf else inf
  | finite m _, neginf => if m = 0 then nan else if 0 < m then neginf else inf
  | finite m1 p1, finite m2 p2 => roundDy (m1 * m2) (p1 + p2)

end F64

/-- Modelled from the spec: the `Vesting` account record is declared
outside the given source file (`use crate::Vesting`); per §3 and §6 of
the spec its calculator-relevant fields are unsigned 64-bit token
amounts (`start_balance`, `outstanding`, `whitelist_owned`,
`period_count`, modelled as `ℕ`) and signed 64-bit Unix timestamps
(`start_ts`, `end_ts`, modelled as `ℤ`).  The remaining fields
(beneficiary, mint, vault, grantor, created_ts, nonce, realizor) are
never read by the calculator and are omitted. -/
structure Vesting where
  start_balance : ℕ
  outstanding : ℕ
  whitelist_owned : ℕ
  start_ts : ℤ
  end_ts : ℤ
  period_count : ℕ
deriving DecidableEq

/-- Rust `u64::checked_sub`: `none` models the `None` that `.unwrap()`
turns into a panic in the source. -/
def checkedSub (a b : ℕ) : Option ℕ :=
  if b ≤ a then some (a - b) else none

/-- Source `balance`: `outstanding.checked_sub(whitelist_owned).unwrap()`. -/
def balance (v : Vesting) : Option ℕ :=
  checkedSub v.outstanding v.whitelist_owned

/-- Source `withdrawn_amount`:
`start_balance.checked_sub(outstanding).unwrap()`. -/
def withdrawn_amount (v : Vesting) : Option ℕ :=
  checkedSub v.start_balance v.outstanding

/-- Source `linear_unlock`, `period_secs`:
`(end_ts - start_ts) / (period_count as f64)` in `f64`. -/
def periodSecs (v : Vesting) : F64 :=
  F64.div (F64.sub (F64.ofInt v.end_ts) (F64.ofInt v.start_ts))
    (F64.ofNat v.period_count)

/-- Source `linear_unlock`, `current_period`:
`((current_ts - start_ts) / period_secs) as u64`. -/
def currentPeriod (v : Vesting) (current_ts : ℤ) : ℕ :=
  F64.toU64
    (F64.div (F64.sub (F64.ofInt current_ts) (F64.ofInt v.start_ts))
      (periodSecs v))

/-- Source `linear_unlock`, `reward_per_period`:
`(start_balance as f64) / (period_count as f64)`. -/
def rewardPerPeriod (v : Vesting) : F64 :=
  F64.div (F64.ofNat v.start_balance) (F64.ofNat v.period_count)

/-- Source `linear_unlock`:
`((current_period as f64) * reward_per_period) as u64`. -/
def linear_unlock (v : Vesting) (current_ts : ℤ) : ℕ :=
  F64.toU64 (F64.mul (F64.ofNat (currentPeriod v current_ts)) (rewardPerPeriod v))

/-- Source `total_vested`: `0` before `start_ts`, `start_balance` at or
after `end_ts`, otherwise `linear_unlock`. -/
def total_vested (v : Vesting) (current_ts : ℤ) : ℕ :=
  if current_ts < v.start_ts then 0
  else if v.end_ts ≤ current_ts then v.start_balance
  else linear_unlock v current_ts

/-- Source `outstanding_vested`:
`total_vested.checked_sub(withdrawn_amount).unwrap()`. -/
def outstanding_vested (v : Vesting) (current_ts : ℤ) : Option ℕ :=
  (withdrawn_amount v).bind fun w => checkedSub (total_vested v current_ts) w

/-- Source `available_for_withdrawal`:
`min(outstanding_vested, balance)` with both operands unwrapped. -/
def available_for_withdrawal (v : Vesting) (current_ts : ℤ) : Option ℕ :=
  (outstanding_vested v current_ts).bind fun a => (balance v).map fun b => min a b

/-! ### Helper lemmas -/

theorem F64.ofNat_zero : F64.ofNat 0 = F64.finite 0 0 := by decide

theorem F64.div_finite_zero_isFinite (x : F64) (p : ℤ) :
    (F64.div x (F64.finite 0 p)).isFinite = false := by
  cases x with
  | nan => rfl
  | inf => rfl
  | neginf => rfl
  | finite m q =>
    have h : F64.div (F64.finite m q) (F64.finite 0 p) =
        if m = 0 then F64.nan else if 0 < m then F64.inf else F64.neginf := rfl
    rw [h]
    split_ifs <;> rfl

theorem F64.toU64_div_nonfinite (y P : F64) (h : P.isFinite = false) :
    F64.toU64 (F64.div y P) = 0 := by
  cases P with
  | finite m p => simp [F64.isFinite] at h
  | inf => cases y <;> rfl
  | neginf => cases y <;> rfl
  | nan => cases y <;> rfl

theorem F64.toU64_mul_zero_nonfinite (r : F64) (h : r.isFinite = false) :
    F64.toU64 (F64.mul (F64.finite 0 0) r) = 0 := by
  cases r with
  | finite m p => simp [F64.isFinite] at h
  | inf => rfl
  | neginf => rfl
  | nan => rfl

theorem total_vested_eq_linear (v : Vesting) (t : ℤ) (h1 : v.start_ts ≤ t)
    (h2 : t < v.end_ts) : total_vested v t = linear_unlock v t := by
  unfold total_vested
  rw [if_neg (not_lt.mpr h1), if_neg (not_le.mpr h2)]

theorem avail_min (v : Vesting) (t : ℤ) (a b : ℕ)
    (ha : outstanding_vested v t = some a) (hb : balance v = some b) :
    available_for_withdrawal v t = some (min a b) := by
  unfold available_for_withdrawal
  rw [ha, hb]
  rfl

/-! ### Claim theorems -/

/-- C1: the claimed upper bound `total_vested(t) ≤ start_balance` fails
on the code.  For the schedule with `start_balance = 2^53 + 3`,
`start_ts = 0`, `end_ts = 2^54`, `period_count = 2^54`, at
`t = 2^54 - 1` (inside the linear regime) the `u64 → f64` cast rounds
`start_balance` up to `2^53 + 4` and the `i64 → f64` cast rounds `t` up
to `2^54`, so the code returns `2^53 + 4`, one token more than
`start_balance`. -/
theorem total_vested_exceeds_start_balance_at_failing_input :
    (⟨9007199254740995, 9007199254740995, 0, 0, 18014398509481984,
        18014398509481984⟩ : Vesting).start_balance <
      total_vested
        ⟨9007199254740995, 9007199254740995, 0, 0, 18014398509481984,
          18014398509481984⟩ 18014398509481983 := by
  decide

/-- C2: the claimed monotonicity `t1 ≤ t2 → total_vested(t1) ≤
total_vested(t2)` fails on the code.  For the schedule with
`start_balance = 2^53 + 3`, `start_ts = 0`, `end_ts = 2^54`,
`period_count = 2^54`, the linear regime at `t1 = 2^54 - 1` yields
`2^53 + 4` (floating-point rounding) while the at-end branch at
`t2 = 2^54` yields `start_balance = 2^53 + 3`, so the value strictly
decreases as time advances from `t1` to `t2`. -/
theorem total_vested_decreases_at_failing_input :
    (18014398509481983 : ℤ) ≤ 18014398509481984 ∧
      total_vested
          ⟨9007199254740995, 9007199254740995, 0, 0, 18014398509481984,
            18014398509481984⟩ 18014398509481984 <
        total_vested
          ⟨9007199254740995, 9007199254740995, 0, 0, 18014398509481984,
            18014398509481984⟩ 18014398509481983 := by
  constructor
  · decide
  · decide

/-- C3: whenever `outstanding_vested` and `balance` both succeed,
`available_for_withdrawal` returns the minimum of the two. -/
theorem available_for_withdrawal_eq_min (v : Vesting) (t : ℤ) (a b : ℕ)
    (ha : outstanding_vested v t = some a) (hb : balance v = some b) :
    available_for_withdrawal v t = some (min a b) :=
  avail_min v t a b ha hb

/-- Witness for C3 at the schedule `(5, 5, 0, 10, 20, 2)` and `t = 15`. -/
theorem available_for_withdrawal_eq_min_witness :
    outstanding_vested ⟨5, 5, 0, 10, 20, 2⟩ 15 = some 2 ∧
      balance ⟨5, 5, 0, 10, 20, 2⟩ = some 5 ∧
      available_for_withdrawal ⟨5, 5, 0, 10, 20, 2⟩ 15 = some (min 2 5) :=
  ⟨by decide, by decide,
    available_for_withdrawal_eq_min ⟨5, 5, 0, 10, 20, 2⟩ 15 2 5 (by decide)
      (by decide)⟩

/-- C4: scenario C of the spec — for the schedule with
`start_balance = 100`, `start_ts = 30`, `end_ts = 41`,
`period_count = 6`, the code yields `16` at `t = 32`, `33` at `t = 34`,
`66` at `t = 38` and `100` at `t = 41`, exactly as the floating-point
period-length and per-period-reward computation dictates. -/
theorem total_vested_scenario_c :
    total_vested ⟨100, 100, 0, 30, 41, 6⟩ 32 = 16 ∧
      total_vested ⟨100, 100, 0, 30, 41, 6⟩ 34 = 33 ∧
      total_vested ⟨100, 100, 0, 30, 41, 6⟩ 38 = 66 ∧
      total_vested ⟨100, 100, 0, 30, 41, 6⟩ 41 = 100 := by
  refine ⟨by decide, by decide, by decide, by decide⟩

/-- C5: the claimed constancy of `total_vested` between period
boundaries fails on the code.  For the well-formed schedule with
`start_balance = 2^53`, `start_ts = 0`, `end_ts = 2^54`,
`period_count = 2^53` the period length is exactly `2`, so the
timestamps `t1 = 2^54 - 2` and `t2 = 2^54 - 1` lie in the same period:
`⌊(t1 - start_ts) / 2⌋ = ⌊(t2 - start_ts) / 2⌋ = 2^53 - 1` (the first
conjunct, as integer division by the exact period length).  Yet the
`i64 → f64` cast rounds `t2` up to `2^54`, so the code returns
`2^53 - 1` at `t1` but `2^53` at `t2`: the vested amount changes
strictly inside a period, not only at a boundary. -/
theorem total_vested_varies_within_period_at_failing_input :
    (18014398509481982 : ℤ) / 2 = (18014398509481983 : ℤ) / 2 ∧
      total_vested
          ⟨9007199254740992, 9007199254740992, 0, 0, 18014398509481984,
            9007199254740992⟩ 18014398509481982 = 9007199254740991 ∧
      total_vested
          ⟨9007199254740992, 9007199254740992, 0, 0, 18014398509481984,
            9007199254740992⟩ 18014398509481983 = 9007199254740992 := by
  refine ⟨by decide, by decide, by decide⟩

/-- C6: when `outstanding > start_balance` the checked subtraction in
`withdrawn_amount` fails (returns `none`, the model of the unwrap
panic) rather than wrapping around. -/
theorem withdrawn_amount_fails_on_underflow (v : Vesting)
    (h : v.start_balance < v.outstanding) : withdrawn_amount v = none := by
  unfold withdrawn_amount checkedSub
  rw [if_neg (not_le.mpr h)]

/-- Witness for C6 at a schedule with `start_balance = 5`,
`outstanding = 7`. -/
theorem withdrawn_amount_fails_on_underflow_witness :
    (5 : ℕ) < 7 ∧ withdrawn_amount ⟨5, 7, 0, 0, 1, 1⟩ = none :=
  ⟨by decide, withdrawn_amount_fails_on_underflow ⟨5, 7, 0, 0, 1, 1⟩ (by decide)⟩

/-- C7: `total_vested` returns `0` strictly before `start_ts`, and for a
schedule satisfying the data-model invariant `start_ts ≤ end_ts` it
returns exactly `start_balance` at or after `end_ts`. -/
theorem total_vested_boundary_branches (v : Vesting) (t : ℤ) :
    (t < v.start_ts → total_vested v t = 0) ∧
      (v.start_ts ≤ v.end_ts → v.end_ts ≤ t →
        total_vested v t = v.start_balance) := by
  constructor
  · intro h
    unfold total_vested
    rw [if_pos h]
  · intro hse h
    unfold total_vested
    rw [if_neg (not_lt.mpr (le_trans hse h)), if_pos h]

/-- Witness for C7 at the schedule `(5, 5, 0, 10, 20, 2)` with `t = 9`
(before start) and `t = 25` (after end). -/
theorem total_vested_boundary_branches_witness :
    total_vested ⟨5, 5, 0, 10, 20, 2⟩ 9 = 0 ∧
      total_vested ⟨5, 5, 0, 10, 20, 2⟩ 25 = 5 :=
  ⟨(total_vested_boundary_branches ⟨5, 5, 0, 10, 20, 2⟩ 9).1 (by decide),
    (total_vested_boundary_branches ⟨5, 5, 0, 10, 20, 2⟩ 25).2 (by decide)
      (by decide)⟩

/-- C8: under the invariant `whitelist_owned ≤ outstanding`, whatever
`available_for_withdrawal` returns never exceeds
`outstanding - whitelist_owned`, the funds physically present in the
vault. -/
theorem available_le_vault_balance (v : Vesting) (t : ℤ) (r : ℕ)
    (hw : v.whitelist_owned ≤ v.outstanding)
    (h : available_for_withdrawal v t = some r) :
    r ≤ v.outstanding - v.whitelist_owned := by
  cases hov : outstanding_vested v t with
  | none =>
    rw [available_for_withdrawal, hov] at h
    exact Option.noConfusion h
  | some a =>
    cases hb : balance v with
    | none =>
      rw [available_for_withdrawal, hov, hb] at h
      exact Option.noConfusion h
    | some b =>
      rw [avail_min v t a b hov hb] at h
      obtain rfl : min a b = r := Option.some.inj h
      have hb' : b = v.outstanding - v.whitelist_owned := by
        unfold balance checkedSub at hb
        rw [if_pos hw] at hb
        exact (Option.some.inj hb).symm
      rw [← hb']
      exact min_le_right a b

/-- Witness for C8 at the schedule `(5, 5, 2, 10, 20, 2)` and `t = 15`,
where the available amount `2` is bounded by the vault balance `3`. -/
theorem available_le_vault_balance_witness :
    available_for_withdrawal ⟨5, 5, 2, 10, 20, 2⟩ 15 = some 2 ∧
      (2 : ℕ) ≤ 5 - 2 :=
  ⟨by decide, available_le_vault_balance ⟨5, 5, 2, 10, 20, 2⟩ 15 2 (by decide)
    (by decide)⟩

/-- C9: under the documented invariants `whitelist_owned ≤ outstanding`,
`outstanding ≤ start_balance` and
`start_balance - outstanding ≤ total_vested(t)`, every checked
subtraction in `balance`, `withdrawn_amount` and `outstanding_vested`
succeeds, so `available_for_withdrawal` returns a value. -/
theorem available_for_withdrawal_succeeds (v : Vesting) (t : ℤ)
    (hw : v.whitelist_owned ≤ v.outstanding)
    (ho : v.outstanding ≤ v.start_balance)
    (hv : v.start_balance - v.outstanding ≤ total_vested v t) :
    (available_for_withdrawal v t).isSome = true := by
  have h1 : withdrawn_amount v = some (v.start_balance - v.outstanding) := by
    unfold withdrawn_amount checkedSub
    rw [if_pos ho]
  have h2 : balance v = some (v.outstanding - v.whitelist_owned) := by
    unfold balance checkedSub
    rw [if_pos hw]
  have h3 : outstanding_vested v t =
      some (total_vested v t - (v.start_balance - v.outstanding)) := by
    unfold outstanding_vested
    rw [h1]
    show checkedSub (total_vested v t) (v.start_balance - v.outstanding) = _
    unfold checkedSub
    rw [if_pos hv]
  rw [available_for_withdrawal, h3, h2]
  rfl

/-- Witness for C9 at the schedule `(5, 5, 0, 10, 20, 2)` and `t = 15`. -/
theorem available_for_withdrawal_succeeds_witness :
    (available_for_withdrawal ⟨5, 5, 0, 10, 20, 2⟩ 15).isSome = true :=
  available_for_withdrawal_succeeds ⟨5, 5, 0, 10, 20, 2⟩ 15 (by decide)
    (by decide) (by decide)

/-- C10: for a degenerate schedule with `period_count = 0` and a
timestamp in the linear regime (`start_ts ≤ t < end_ts`), the
floating-point divisions by zero produce infinities or NaN rather than
an error, the resulting period index casts to `0`, and
`0.0 * reward_per_period` is NaN or zero, so the whole computation
returns `0` without failing. -/
theorem total_vested_zero_period_count (v : Vesting) (t : ℤ)
    (hn : v.period_count = 0) (h1 : v.start_ts ≤ t) (h2 : t < v.end_ts) :
    total_vested v t = 0 := by
  rw [total_vested_eq_linear v t h1 h2]
  have hps : (periodSecs v).isFinite = false := by
    unfold periodSecs
    rw [hn, F64.ofNat_zero]
    exact F64.div_finite_zero_isFinite _ 0
  have hcp : currentPeriod v t = 0 := by
    unfold currentPeriod
    exact F64.toU64_div_nonfinite _ _ hps
  have hrw : (rewardPerPeriod v).isFinite = false := by
    unfold rewardPerPeriod
    rw [hn, F64.ofNat_zero]
    exact F64.div_finite_zero_isFinite _ 0
  unfold linear_unlock
  rw [hcp, F64.ofNat_zero]
  exact F64.toU64_mul_zero_nonfinite _ hrw

/-- Witness for C10 at the schedule `(100, 100, 0, 30, 41, 0)` and
`t = 35`. -/
theorem total_vested_zero_period_count_witness :
    total_vested ⟨100, 100, 0, 30, 41, 0⟩ 35 = 0 :=
  total_vested_zero_period_count ⟨100, 100, 0, 30, 41, 0⟩ 35 (by decide)
    (by decide) (by decide)

end Stake
